import Mathlib

/-!
Verification of the resumable benchmark orchestrator core:
rate limiter, retrying executor adapter, checkpoint store, and the two
runner loops (comparison mode and single-pipeline mode), shallowly
embedded from the repository sources
(src/src/config.py, src/src/checkpoint_manager.py,
src/src/parallel_runner.py, src/src/single_pipeline_runner.py).
-/

set_option maxHeartbeats 1000000
set_option linter.unusedVariables false

namespace Bench

/-- Python values stored in the open metadata / quotation dictionaries:
strings and numbers are the kinds the core writes. -/
inductive Val where
  | str (s : String)
  | num (q : ℚ)
deriving DecidableEq, Repr

/-- A Python dict used by the core (string keys, insertion ordered). -/
abbrev Dict := List (String × Val)

/-- Python dict assignment d[k] = v: replace in place if the key exists,
otherwise append at the end (insertion order semantics). -/
def dictSet : Dict → String → Val → Dict
  | [], k, v => [(k, v)]
  | (k₁, v₁) :: rest, k, v =>
    if k₁ = k then (k, v) :: rest else (k₁, v₁) :: dictSet rest k v

/-- config.py TestCase: identity tuple plus optional gold labels. -/
structure TestCase where
  entry_ref : String
  sense_id : String
  word : String
  pos : String
  gold_labels : Option (List String) := none
deriving DecidableEq, Repr

/-- config.py PipelineResult: outcome of one pipeline execution. -/
structure PipelineResult where
  test_case : TestCase
  pipeline_name : String
  quotations : List Dict
  metadata : Dict
  error : Option String := none
deriving DecidableEq, Repr

/-- config.py ComparisonResult: outcome of comparing two pipelines on one
test case. -/
structure ComparisonResult where
  test_case : TestCase
  new_result : PipelineResult
  old_result : PipelineResult
deriving DecidableEq, Repr

/-- An element of a checkpoint file: ComparisonResult or PipelineResult
(the Union type annotated in checkpoint_manager.py). -/
inductive Outcome where
  | single (r : PipelineResult)
  | comparison (c : ComparisonResult)
deriving DecidableEq, Repr

/-- The sense_id of the test_case attribute carried by either kind of
stored result (checkpoint_manager.py get_completed_ids). -/
def Outcome.senseId : Outcome → String
  | .single r => r.test_case.sense_id
  | .comparison c => c.test_case.sense_id

/-! ## Retrying executor adapter

Embeds `_execute_with_retry` of single_pipeline_runner.py (lines 173-212)
and parallel_runner.py (lines 179-220); the two method bodies are
textually identical, differing only in how the executor object is
supplied, so a single definition parameterised by the per-attempt
behaviour of the capability embeds both. -/

/-- A Python exception: its type name and its message (str(e)). -/
structure Exc where
  name : String
  msg : String
deriving DecidableEq, Repr

/-- What one invocation of the pipeline-execution capability does:
either raise an exception or return a PipelineResult. -/
inductive ExecBehavior where
  | raises (e : Exc)
  | returns (r : PipelineResult)
deriving DecidableEq, Repr

/-- The try-block of one attempt: execute; if the returned result has its
error field set, raise Exception(result.error); otherwise return it. -/
def attemptResult : ExecBehavior → Except Exc PipelineResult
  | .raises e => .error e
  | .returns r =>
    match r.error with
    | some msg => .error ⟨"Exception", msg⟩
    | none => .ok r

/-- The exception produced by one attempt, if it failed. -/
def attemptExc (b : ExecBehavior) : Option Exc :=
  match attemptResult b with
  | .error e => some e
  | .ok _ => none

/-- The synthetic result built when the final attempt fails: empty
quotations, metadata carrying the exception type name under error_type,
and the formatted failure message. -/
def failureResult (tc : TestCase) (nm : String) (max_retries : ℕ) (e : Exc) :
    PipelineResult :=
  { test_case := tc
    pipeline_name := nm
    quotations := []
    metadata := [("error_type", Val.str e.name)]
    error := some ("Failed after " ++ toString max_retries ++ " attempts: " ++ e.msg) }

/-- The retry loop `for attempt in range(max_retries)` starting at a given
attempt index. Returns the value the Python function returns (none models
falling off the loop and returning None) together with the number of
capability invocations performed. `cap i` is the behaviour of the
capability on its i-th invocation (0-indexed). -/
def retryAux (cap : ℕ → ExecBehavior) (tc : TestCase) (nm : String)
    (max_retries : ℕ) (attempt : ℕ) : Option PipelineResult × ℕ :=
  if h : attempt < max_retries then
    match attemptResult (cap attempt) with
    | .ok r => (some r, 1)
    | .error e =>
      if attempt = max_retries - 1 then
        (some (failureResult tc nm max_retries e), 1)
      else
        let rec_ := retryAux cap tc nm max_retries (attempt + 1)
        (rec_.1, rec_.2 + 1)
  else (none, 0)
termination_by max_retries - attempt
decreasing_by omega

/-- The method _execute_with_retry: the value returned after up to max_retries
attempts (None when max_retries is zero and the loop body never runs). -/
def executeWithRetry (cap : ℕ → ExecBehavior) (tc : TestCase) (nm : String)
    (max_retries : ℕ) : Option PipelineResult :=
  (retryAux cap tc nm max_retries 0).1

/-- Number of times `_execute_with_retry` invokes the capability. -/
def retryInvocations (cap : ℕ → ExecBehavior) (tc : TestCase) (nm : String)
    (max_retries : ℕ) : ℕ :=
  (retryAux cap tc nm max_retries 0).2

/-! ## Rate limiter

Embeds the RateLimiter class, identical in parallel_runner.py (lines
16-44) and single_pipeline_runner.py (lines 15-43). Wall-clock time is a
rational; wait_if_needed takes the current time and returns the amount
slept together with the updated state. After sleeping, time.time() reads
now + slept, which is what the last-call mark is set to. -/

structure RateLimiter where
  calls_per_minute : ℕ
  min_interval : ℚ
  last_call_time : ℚ
deriving DecidableEq, Repr

/-- RateLimiter.__init__ : min_interval is 60 / calls_per_minute, or 0
when calls_per_minute is 0; the last-call mark starts at 0. -/
def RateLimiter.mk0 (calls_per_minute : ℕ) : RateLimiter :=
  { calls_per_minute := calls_per_minute
    min_interval := if calls_per_minute > 0 then 60 / (calls_per_minute : ℚ) else 0
    last_call_time := 0 }

/-- RateLimiter.wait_if_needed at wall-clock time `now`: returns the
sleep duration and the updated limiter. -/
def RateLimiter.wait_if_needed (s : RateLimiter) (now : ℚ) : ℚ × RateLimiter :=
  if s.min_interval = 0 then (0, s)
  else
    let time_since_last := now - s.last_call_time
    let sleep_time := if time_since_last < s.min_interval
      then s.min_interval - time_since_last else 0
    (sleep_time, { s with last_call_time := now + sleep_time })

/-! ## Checkpoint store

Embeds CheckpointManager (checkpoint_manager.py). The pickle object
graph written by save is modelled concretely by the PVal type below
together with per-type encoders and decoders; a checkpoint file is
either absent or holds one PVal blob (a blob the decoder rejects models
a corrupt or unreadable file). The class is generic over the element
type exactly as pickle is; the runners instantiate it at
ComparisonResult and PipelineResult. -/

/-- A pickled Python object graph: strings, numbers, None and lists. -/
inductive PVal where
  | pstr (s : String)
  | pnum (q : ℚ)
  | pnone
  | plist (xs : List PVal)

/-- Decode every element of a list, failing if any element fails. -/
def decListWith (g : PVal → Option α) : List PVal → Option (List α)
  | [] => some []
  | v :: vs =>
    match g v, decListWith g vs with
    | some a, some as => some (a :: as)
    | _, _ => none

def encVal : Val → PVal
  | .str s => .pstr s
  | .num q => .pnum q

def decVal : PVal → Option Val
  | .pstr s => some (.str s)
  | .pnum q => some (.num q)
  | _ => none

def encDictEntry (kv : String × Val) : PVal := .plist [.pstr kv.1, encVal kv.2]

def decDictEntry : PVal → Option (String × Val)
  | .plist [.pstr k, v] => (decVal v).map (fun w => (k, w))
  | _ => none

def encDict (d : Dict) : PVal := .plist (d.map encDictEntry)

def decDict : PVal → Option Dict
  | .plist xs => decListWith decDictEntry xs
  | _ => none

def decStr : PVal → Option String
  | .pstr s => some s
  | _ => none

def encOptStrList : Option (List String) → PVal
  | none => .pnone
  | some l => .plist (l.map .pstr)

def decOptStrList : PVal → Option (Option (List String))
  | .pnone => some none
  | .plist xs => (decListWith decStr xs).map some
  | _ => none

def encOptStr : Option String → PVal
  | none => .pnone
  | some s => .pstr s

def decOptStr : PVal → Option (Option String)
  | .pnone => some none
  | .pstr s => some (some s)
  | _ => none

def encTestCase (tc : TestCase) : PVal :=
  .plist [.pstr tc.entry_ref, .pstr tc.sense_id, .pstr tc.word, .pstr tc.pos,
          encOptStrList tc.gold_labels]

def decTestCase : PVal → Option TestCase
  | .plist [.pstr a, .pstr b, .pstr c, .pstr d, g] =>
    (decOptStrList g).map (fun gl => ⟨a, b, c, d, gl⟩)
  | _ => none

def encPR (r : PipelineResult) : PVal :=
  .plist [encTestCase r.test_case, .pstr r.pipeline_name,
          .plist (r.quotations.map encDict), encDict r.metadata,
          encOptStr r.error]

def decPR : PVal → Option PipelineResult
  | .plist [tcv, .pstr nm, .plist qs, mv, ev] =>
    match decTestCase tcv, decListWith decDict qs, decDict mv, decOptStr ev with
    | some tc, some quots, some md, some er => some ⟨tc, nm, quots, md, er⟩
    | _, _, _, _ => none
  | _ => none

def encCR (c : ComparisonResult) : PVal :=
  .plist [encTestCase c.test_case, encPR c.new_result, encPR c.old_result]

def decCR : PVal → Option ComparisonResult
  | .plist [tcv, nv, ov] =>
    match decTestCase tcv, decPR nv, decPR ov with
    | some tc, some n, some o => some ⟨tc, n, o⟩
    | _, _, _ => none
  | _ => none

def encOutcome : Outcome → PVal
  | .single r => .plist [.pstr "PipelineResult", encPR r]
  | .comparison c => .plist [.pstr "ComparisonResult", encCR c]

def decOutcome : PVal → Option Outcome
  | .plist [.pstr "PipelineResult", v] => (decPR v).map .single
  | .plist [.pstr "ComparisonResult", v] => (decCR v).map .comparison
  | _ => none

/-- Pickle of a whole checkpoint list of mixed outcomes. -/
def encOutcomes (l : List Outcome) : PVal := .plist (l.map encOutcome)

def decOutcomes : PVal → Option (List Outcome)
  | .plist xs => decListWith decOutcome xs
  | _ => none

/-- Pickle of a comparison-mode checkpoint list. -/
def encCRs (l : List ComparisonResult) : PVal := .plist (l.map encCR)

def decCRs : PVal → Option (List ComparisonResult)
  | .plist xs => decListWith decCR xs
  | _ => none

/-- Pickle of a single-pipeline-mode checkpoint list. -/
def encPRs (l : List PipelineResult) : PVal := .plist (l.map encPR)

def decPRs : PVal → Option (List PipelineResult)
  | .plist xs => decListWith decPR xs
  | _ => none

/-- CheckpointManager state: the checkpoint file for this run identity
(none when no file exists) and the in-memory results cache. -/
structure CheckpointManager (α : Type) where
  file : Option PVal
  results : List α

/-- CheckpointManager.save: set the cache to the given list and overwrite
the file with its pickled form. -/
def CheckpointManager.save (enc : List α → PVal) (m : CheckpointManager α)
    (results : List α) : CheckpointManager α :=
  { file := some (enc results), results := results }

/-- CheckpointManager.load: if the file exists, unpickle it into the
cache, falling back to an empty cache when unpickling fails; return the
cache. When no file exists the method returns the existing cache
unchanged. -/
def CheckpointManager.load (dec : PVal → Option (List α))
    (m : CheckpointManager α) : List α × CheckpointManager α :=
  match m.file with
  | none => (m.results, m)
  | some v =>
    match dec v with
    | some rs => (rs, { m with results := rs })
    | none => ([], { m with results := [] })

/-- CheckpointManager.__init__: start with an empty cache and load the
existing checkpoint file if one is present. -/
def CheckpointManager.init0 (dec : PVal → Option (List α)) (file : Option PVal) :
    CheckpointManager α :=
  match file with
  | none => { file := none, results := [] }
  | some v => (CheckpointManager.load dec { file := some v, results := [] }).2

/-- CheckpointManager.get_completed_ids: the sense_ids of the cached
results (every stored result carries a test_case attribute). -/
def CheckpointManager.get_completed_ids (sid : α → String)
    (m : CheckpointManager α) : List String :=
  m.results.map sid

/-- CheckpointManager.clear: delete the file and empty the cache. -/
def CheckpointManager.clear (m : CheckpointManager α) : CheckpointManager α :=
  { file := none, results := [] }

/-! ## Orchestrator runs

Embeds ParallelComparisonRunner.run (parallel_runner.py lines 72-137)
and SinglePipelineRunner.run (single_pipeline_runner.py lines 67-155).
Workers only compute a value per test case; the collection loop appends
outcomes serially, so the loop is embedded as sequential accumulation
over the submitted cases, with the per-case outcome supplied by a
function. Alongside the result list and the final manager state, the
embedding records the snapshots handed to CheckpointManager.save, in
order. -/

/-- The remaining-work filter shared by both run methods:
remaining = the test cases whose sense_id is not in completed_ids. -/
def remainingCases (completed_ids : List String) (test_cases : List TestCase) :
    List TestCase :=
  test_cases.filter (fun tc => !(completed_ids.contains tc.sense_id))

/-- The collection loop: append each completed outcome to the
accumulator and save a checkpoint whenever the accumulated length is
divisible by the checkpoint interval K. Returns the final manager, the
final accumulator, and the snapshots saved during the loop. -/
def runLoop (enc : List α → PVal) (K : ℕ) :
    CheckpointManager α → List α → List α →
    CheckpointManager α × List α × List (List α)
  | m, acc, [] => (m, acc, [])
  | m, acc, o :: rest =>
    let acc₁ := acc ++ [o]
    if acc₁.length % K = 0 then
      let step := runLoop enc K (m.save enc acc₁) acc₁ rest
      (step.1, step.2.1, acc₁ :: step.2.2)
    else
      runLoop enc K m acc₁ rest

/-- Everything a run returns to its caller plus the observable
checkpoint activity: the returned list, the snapshots saved (in order),
and the final manager state. -/
structure RunResult (α : Type) where
  results : List α
  saves : List (List α)
  manager : CheckpointManager α

/-- ParallelComparisonRunner.run: filter against the completed set, do a
no-op resume returning load() when nothing remains, otherwise load the
prior results, process every remaining case through the collection loop
and save a final checkpoint. `ec` is what one submitted task produces
for a test case (_compare_single). -/
def ParallelComparisonRunner.run (ec : TestCase → ComparisonResult) (K : ℕ)
    (m : CheckpointManager ComparisonResult) (test_cases : List TestCase) :
    RunResult ComparisonResult :=
  let completed_ids := m.get_completed_ids (fun c => c.test_case.sense_id)
  let remaining := remainingCases completed_ids test_cases
  if remaining.isEmpty then
    let loaded := m.load decCRs
    ⟨loaded.1, [], loaded.2⟩
  else
    let loaded := m.load decCRs
    let step := runLoop encCRs K loaded.2 loaded.1 (remaining.map ec)
    ⟨step.2.1, step.2.2 ++ [step.2.1], step.1.save encCRs step.2.1⟩

/-- The in-place dict write result.metadata[total_execution_time] = t
performed by SinglePipelineRunner.run on every returned result. -/
def PipelineResult.setTotalTime (t : ℚ) (r : PipelineResult) : PipelineResult :=
  { r with metadata := dictSet r.metadata "total_execution_time" (.num t) }

/-- SinglePipelineRunner.run: same structure as the comparison run, with
two extra steps taken after the final checkpoint is written: on the
no-op resume path every loaded result gets total_execution_time 0 in
its metadata, and on the full path every accumulated result gets the
measured wall-clock duration `total_time`. -/
def SinglePipelineRunner.run (ec : TestCase → PipelineResult) (K : ℕ)
    (total_time : ℚ) (m : CheckpointManager PipelineResult)
    (test_cases : List TestCase) : RunResult PipelineResult :=
  let completed_ids := m.get_completed_ids (fun r => r.test_case.sense_id)
  let remaining := remainingCases completed_ids test_cases
  if remaining.isEmpty then
    let loaded := m.load decPRs
    ⟨loaded.1.map (PipelineResult.setTotalTime 0), [], loaded.2⟩
  else
    let loaded := m.load decPRs
    let step := runLoop encPRs K loaded.2 loaded.1 (remaining.map ec)
    ⟨step.2.1.map (PipelineResult.setTotalTime total_time),
     step.2.2 ++ [step.2.1], step.1.save encPRs step.2.1⟩

/-- ParallelComparisonRunner._compare_single (parallel_runner.py lines
139-177): rate-limit, launch the new and old pipeline calls, each
through its own retry adapter with max_retries 3, wait for both, and
join them into one ComparisonResult. `newCap tc` and `oldCap tc` give
the behaviour of the two capabilities on each invocation for the test
case. With max_retries 3 the retry adapter always returns a result
(executeWithRetry_isSome), so the getD default is never used. -/
def ParallelComparisonRunner.compareSingle
    (newCap oldCap : TestCase → ℕ → ExecBehavior) (newName oldName : String)
    (tc : TestCase) : ComparisonResult :=
  { test_case := tc
    new_result := (executeWithRetry (newCap tc) tc newName 3).getD
      (failureResult tc newName 3 ⟨"", ""⟩)
    old_result := (executeWithRetry (oldCap tc) tc oldName 3).getD
      (failureResult tc oldName 3 ⟨"", ""⟩) }

/-- The snapshots the loop saves, described positionally: starting from
an accumulator `acc`, after appending the first i+1 of the processed
outcomes a snapshot is saved exactly when the new length is divisible
by K, and the snapshot is that prefix. -/
def specSaves (K : ℕ) (acc outs : List α) : List (List α) :=
  (List.range outs.length).filterMap (fun i =>
    if (acc.length + i + 1) % K = 0 then some (acc ++ outs.take (i + 1)) else none)

/-! ## Theorems -/

theorem attemptResult_ok_error_none {b : ExecBehavior} {r : PipelineResult}
    (h : attemptResult b = .ok r) : r.error = none := by
  cases b with
  | raises e => simp [attemptResult] at h
  | returns r₁ =>
    cases he : r₁.error with
    | some m => simp [attemptResult, he] at h
    | none => simp [attemptResult, he] at h; simpa [← h]

/-- If every attempt from `attempt` to the last one fails, the loop runs to
the end, invokes the capability once per remaining attempt, and returns
the synthetic failure result built from the last exception. -/
theorem retryAux_all_fail (cap : ℕ → ExecBehavior) (tc : TestCase) (nm : String)
    (max_retries : ℕ) (e : Exc)
    (hlast : attemptExc (cap (max_retries - 1)) = some e) :
    ∀ d attempt, max_retries = attempt + d + 1 →
      (∀ i, i < max_retries → attemptExc (cap i) ≠ none) →
      retryAux cap tc nm max_retries attempt =
        (some (failureResult tc nm max_retries e), d + 1) := by
  intro d
  induction d with
  | zero =>
    intro attempt hmr _hfail
    have hlt : attempt < max_retries := by omega
    have hattempt : attempt = max_retries - 1 := by omega
    rw [retryAux]
    rw [dif_pos hlt]
    have he : attemptResult (cap attempt) = .error e := by
      rw [hattempt]
      unfold attemptExc at hlast
      revert hlast
      cases attemptResult (cap (max_retries - 1)) with
      | error e₁ => intro hlast; simp at hlast; rw [hlast]
      | ok r => intro hlast; simp at hlast
    simp only [he, if_pos hattempt]
  | succ d ih =>
    intro attempt hmr hfail
    have hlt : attempt < max_retries := by omega
    have hne : attempt ≠ max_retries - 1 := by omega
    have hf := hfail attempt hlt
    rw [retryAux]
    rw [dif_pos hlt]
    unfold attemptExc at hf
    cases hres : attemptResult (cap attempt) with
    | ok r => rw [hres] at hf; simp at hf
    | error e₁ =>
      simp only [hres, if_neg hne]
      rw [ih (attempt + 1) (by omega) hfail]

/-- If attempts `attempt .. k-1` fail and attempt `k < max_retries`
succeeds with result r, the loop stops at k and returns r, having invoked
the capability once per attempt up to and including k. -/
theorem retryAux_succeeds (cap : ℕ → ExecBehavior) (tc : TestCase) (nm : String)
    (max_retries k : ℕ) (r : PipelineResult)
    (hk : k < max_retries)
    (hsucc : attemptResult (cap k) = .ok r) :
    ∀ d attempt, k = attempt + d →
      (∀ i, attempt ≤ i → i < k → attemptExc (cap i) ≠ none) →
      retryAux cap tc nm max_retries attempt = (some r, d + 1) := by
  intro d
  induction d with
  | zero =>
    intro attempt hkd _hfail
    have hattempt : attempt = k := by omega
    rw [retryAux, dif_pos (by omega : attempt < max_retries)]
    rw [hattempt]
    simp only [hsucc]
  | succ d ih =>
    intro attempt hkd hfail
    have hlt : attempt < max_retries := by omega
    have hne : attempt ≠ max_retries - 1 := by omega
    have hf := hfail attempt (le_refl _) (by omega)
    rw [retryAux, dif_pos hlt]
    unfold attemptExc at hf
    cases hres : attemptResult (cap attempt) with
    | ok r₁ => rw [hres] at hf; simp at hf
    | error e₁ =>
      simp only [hres, if_neg hne]
      rw [ih (attempt + 1) (by omega) (fun i h₁ h₂ => hfail i (by omega) h₂)]

/-- For one or more allowed attempts the retry loop always returns a
result value. -/
theorem retryAux_isSome (cap : ℕ → ExecBehavior) (tc : TestCase) (nm : String)
    (max_retries : ℕ) :
    ∀ d attempt, max_retries = attempt + d + 1 →
      ∃ r, (retryAux cap tc nm max_retries attempt).1 = some r := by
  intro d
  induction d with
  | zero =>
    intro attempt hmr
    have hlt : attempt < max_retries := by omega
    have hattempt : attempt = max_retries - 1 := by omega
    rw [retryAux, dif_pos hlt]
    cases hres : attemptResult (cap attempt) with
    | ok r => exact ⟨r, rfl⟩
    | error e =>
      simp only [if_pos hattempt]
      exact ⟨_, rfl⟩
  | succ d ih =>
    intro attempt hmr
    have hlt : attempt < max_retries := by omega
    have hne : attempt ≠ max_retries - 1 := by omega
    rw [retryAux, dif_pos hlt]
    cases hres : attemptResult (cap attempt) with
    | ok r => exact ⟨r, rfl⟩
    | error e =>
      simp only [if_neg hne]
      exact ih (attempt + 1) (by omega)

theorem executeWithRetry_isSome (cap : ℕ → ExecBehavior) (tc : TestCase)
    (nm : String) (max_retries : ℕ) (h : 1 ≤ max_retries) :
    ∃ r, executeWithRetry cap tc nm max_retries = some r := by
  exact retryAux_isSome cap tc nm max_retries (max_retries - 1) 0 (by omega)

theorem decListWith_map_encode {α : Type} (f : α → PVal) (g : PVal → Option α)
    (xs : List α) (h : ∀ a ∈ xs, g (f a) = some a) :
    decListWith g (xs.map f) = some xs := by
  induction xs with
  | nil => rfl
  | cons a as ih =>
    simp only [List.map_cons, decListWith]
    rw [h a (by simp), ih (fun b hb => h b (by simp [hb]))]

theorem decVal_encVal (v : Val) : decVal (encVal v) = some v := by
  cases v <;> rfl

theorem decDictEntry_encDictEntry (kv : String × Val) :
    decDictEntry (encDictEntry kv) = some kv := by
  cases kv with
  | mk k v => simp [encDictEntry, decDictEntry, decVal_encVal]

theorem decDict_encDict (d : Dict) : decDict (encDict d) = some d := by
  simp only [encDict, decDict]
  exact decListWith_map_encode _ _ _ (fun a _ => decDictEntry_encDictEntry a)

theorem decOptStrList_encOptStrList (o : Option (List String)) :
    decOptStrList (encOptStrList o) = some o := by
  cases o with
  | none => rfl
  | some l =>
    simp only [encOptStrList, decOptStrList]
    rw [decListWith_map_encode PVal.pstr decStr l (fun a _ => rfl)]
    rfl

theorem decOptStr_encOptStr (o : Option String) :
    decOptStr (encOptStr o) = some o := by
  cases o <;> rfl

theorem decTestCase_encTestCase (tc : TestCase) :
    decTestCase (encTestCase tc) = some tc := by
  simp [encTestCase, decTestCase, decOptStrList_encOptStrList]

theorem decPR_encPR (r : PipelineResult) : decPR (encPR r) = some r := by
  simp only [encPR, decPR]
  rw [decTestCase_encTestCase,
      decListWith_map_encode _ _ _ (fun a _ => decDict_encDict a),
      decDict_encDict, decOptStr_encOptStr]

theorem decCR_encCR (c : ComparisonResult) : decCR (encCR c) = some c := by
  simp only [encCR, decCR]
  rw [decTestCase_encTestCase, decPR_encPR, decPR_encPR]

theorem decOutcome_encOutcome (o : Outcome) :
    decOutcome (encOutcome o) = some o := by
  cases o with
  | single r => simp [encOutcome, decOutcome, decPR_encPR]
  | comparison c => simp [encOutcome, decOutcome, decCR_encCR]

theorem decOutcomes_encOutcomes (l : List Outcome) :
    decOutcomes (encOutcomes l) = some l := by
  simp only [encOutcomes, decOutcomes]
  exact decListWith_map_encode _ _ _ (fun a _ => decOutcome_encOutcome a)

theorem decCRs_encCRs (l : List ComparisonResult) :
    decCRs (encCRs l) = some l := by
  simp only [encCRs, decCRs]
  exact decListWith_map_encode _ _ _ (fun a _ => decCR_encCR a)

theorem decPRs_encPRs (l : List PipelineResult) :
    decPRs (encPRs l) = some l := by
  simp only [encPRs, decPRs]
  exact decListWith_map_encode _ _ _ (fun a _ => decPR_encPR a)

/-! ### Lemmas about the collection loop -/

theorem runLoop_results (enc : List α → PVal) (K : ℕ) :
    ∀ (outs : List α) (m : CheckpointManager α) (acc : List α),
      (runLoop enc K m acc outs).2.1 = acc ++ outs := by
  intro outs
  induction outs with
  | nil => intro m acc; simp [runLoop]
  | cons o rest ih =>
    intro m acc
    rw [runLoop]
    by_cases h : (acc ++ [o]).length % K = 0
    · simp only [if_pos h, ih]
      simp
    · simp only [if_neg h, ih]
      simp

theorem specSaves_nil (K : ℕ) (acc : List α) : specSaves K acc [] = [] := by
  simp [specSaves]

theorem specSaves_cons (K : ℕ) (acc : List α) (o : α) (rest : List α) :
    specSaves K acc (o :: rest) =
      (if (acc.length + 1) % K = 0 then [acc ++ [o]] else []) ++
        specSaves K (acc ++ [o]) rest := by
  simp only [specSaves, List.length_cons, List.range_succ_eq_map,
    List.filterMap_cons, List.filterMap_map]
  by_cases h : (acc.length + 1) % K = 0
  · simp only [Nat.add_zero, if_pos h, List.take_succ_cons, List.take_zero]
    congr 1
    apply List.filterMap_congr
    intro i _
    simp only [Function.comp]
    have harith : acc.length + (i + 1) + 1 = (acc ++ [o]).length + i + 1 := by
      simp; omega
    rw [harith]
    by_cases h₂ : ((acc ++ [o]).length + i + 1) % K = 0
    · simp only [if_pos h₂, List.take_succ_cons]
      rw [List.append_cons acc o (rest.take (i + 1))]
    · simp only [if_neg h₂]
  · simp only [Nat.add_zero, if_neg h, List.nil_append]
    apply List.filterMap_congr
    intro i _
    simp only [Function.comp]
    have harith : acc.length + (i + 1) + 1 = (acc ++ [o]).length + i + 1 := by
      simp; omega
    rw [harith]
    by_cases h₂ : ((acc ++ [o]).length + i + 1) % K = 0
    · simp only [if_pos h₂, List.take_succ_cons]
      rw [List.append_cons acc o (rest.take (i + 1))]
    · simp only [if_neg h₂]

theorem runLoop_saves (enc : List α → PVal) (K : ℕ) :
    ∀ (outs : List α) (m : CheckpointManager α) (acc : List α),
      (runLoop enc K m acc outs).2.2 = specSaves K acc outs := by
  intro outs
  induction outs with
  | nil => intro m acc; simp [runLoop, specSaves_nil]
  | cons o rest ih =>
    intro m acc
    rw [runLoop, specSaves_cons]
    by_cases h : (acc ++ [o]).length % K = 0
    · have h₁ : (acc.length + 1) % K = 0 := by simpa using h
      simp only [if_pos h, if_pos h₁, ih]
      simp
    · have h₁ : ¬(acc.length + 1) % K = 0 := by simpa using h
      simp only [if_neg h, if_neg h₁, ih]
      simp

/-- The manager at the end of the loop: its cache and file reflect the
last snapshot saved during the loop, or stay as they were when the loop
saved nothing. -/
theorem runLoop_manager (enc : List α → PVal) (K : ℕ) :
    ∀ (outs : List α) (m : CheckpointManager α) (acc : List α),
      (runLoop enc K m acc outs).1 =
        (match (specSaves K acc outs).getLast? with
          | some snap => CheckpointManager.save enc m snap
          | none => m) := by
  intro outs
  induction outs with
  | nil => intro m acc; simp [runLoop, specSaves_nil]
  | cons o rest ih =>
    intro m acc
    rw [runLoop, specSaves_cons]
    by_cases h : (acc ++ [o]).length % K = 0
    · have h₁ : (acc.length + 1) % K = 0 := by simpa using h
      simp only [if_pos h, if_pos h₁, ih]
      cases hrest : (specSaves K (acc ++ [o]) rest).getLast? with
      | none =>
        rw [List.getLast?_append, hrest]
        simp [CheckpointManager.save]
      | some snap =>
        rw [List.getLast?_append, hrest]
        simp [CheckpointManager.save]
    · have h₁ : ¬(acc.length + 1) % K = 0 := by simpa using h
      simp only [if_neg h, if_neg h₁, ih]
      simp

/-! ### Shared helper lemmas about the checkpoint manager -/

theorem CheckpointManager.init0_good {α : Type} (dec : PVal → Option (List α))
    (v : PVal) (l : List α) (h : dec v = some l) :
    CheckpointManager.init0 dec (some v) =
      ({ file := some v, results := l } : CheckpointManager α) := by
  simp [CheckpointManager.init0, CheckpointManager.load, h]

theorem CheckpointManager.load_consistent {α : Type} (dec : PVal → Option (List α))
    (v : PVal) (l : List α) (h : dec v = some l) :
    CheckpointManager.load dec ({ file := some v, results := l } : CheckpointManager α) =
      (l, { file := some v, results := l }) := by
  simp [CheckpointManager.load, h]

/-! ## Claims -/

/-- C10: with max_retries 0 the retry loop body never runs: the helper
performs no capability invocation and returns None instead of a result
value, so callers must pass max_retries at least 1 for the adapter to be
total. -/
theorem claim_C10_zero_retries_returns_none (cap : ℕ → ExecBehavior)
    (tc : TestCase) (nm : String) :
    executeWithRetry cap tc nm 0 = none ∧ retryInvocations cap tc nm 0 = 0 := by
  constructor
  · rw [executeWithRetry, retryAux]
    simp
  · rw [retryInvocations, retryAux]
    simp

/-- C2: for every test case and every capability behaviour, the retry
adapter (with at least one allowed attempt, as at every call site where
max_retries is 3) returns a result value rather than propagating an
exception, and when every attempt fails the returned value is the
synthetic result with empty quotations, metadata error_type naming the
kind of the last exception, and the formatted failure message mentioning
max_retries attempts. -/
theorem claim_C2_retry_never_propagates (cap : ℕ → ExecBehavior)
    (tc : TestCase) (nm : String) (max_retries : ℕ) (h1 : 1 ≤ max_retries) :
    (∃ r, executeWithRetry cap tc nm max_retries = some r) ∧
    (∀ e : Exc, (∀ i, i < max_retries → attemptExc (cap i) ≠ none) →
      attemptExc (cap (max_retries - 1)) = some e →
      executeWithRetry cap tc nm max_retries =
        some { test_case := tc
               pipeline_name := nm
               quotations := []
               metadata := [("error_type", Val.str e.name)]
               error := some ("Failed after " ++ toString max_retries ++
                 " attempts: " ++ e.msg) }) := by
  constructor
  · exact executeWithRetry_isSome cap tc nm max_retries h1
  · intro e hfail hlast
    have := retryAux_all_fail cap tc nm max_retries e hlast (max_retries - 1) 0
      (by omega) hfail
    rw [executeWithRetry, this]
    rfl

theorem claim_C2_witness :
    1 ≤ 3 ∧
    executeWithRetry (fun _ => .raises ⟨"TimeoutError", "socket timed out"⟩)
        ⟨"fine_n", "fine_n01_1", "fine", "n", none⟩ "new_pipeline" 3 =
      some { test_case := ⟨"fine_n", "fine_n01_1", "fine", "n", none⟩
             pipeline_name := "new_pipeline"
             quotations := []
             metadata := [("error_type", Val.str "TimeoutError")]
             error := some "Failed after 3 attempts: socket timed out" } := by
  refine ⟨by norm_num, ?_⟩
  have h := (claim_C2_retry_never_propagates
    (fun _ => .raises ⟨"TimeoutError", "socket timed out"⟩)
    ⟨"fine_n", "fine_n01_1", "fine", "n", none⟩ "new_pipeline" 3 (by norm_num)).2
    ⟨"TimeoutError", "socket timed out"⟩
    (fun i _ => by simp [attemptExc, attemptResult]) rfl
  simpa using h

/-- C3: a capability failing on every call (raising, or returning a
result whose error field is set) is invoked exactly max_retries times and
the final outcome has error set; one failing exactly k < max_retries
times before succeeding is invoked exactly k + 1 times and the returned
outcome is the successful one with error unset. -/
theorem claim_C3_retry_invocation_counts
    (capF capS : ℕ → ExecBehavior) (tc : TestCase) (nm : String)
    (max_retries k : ℕ) (r : PipelineResult)
    (h1 : 1 ≤ max_retries)
    (hF : ∀ i, i < max_retries → attemptExc (capF i) ≠ none)
    (hk : k < max_retries)
    (hS : ∀ i, i < k → attemptExc (capS i) ≠ none)
    (hr : attemptResult (capS k) = .ok r) :
    (retryInvocations capF tc nm max_retries = max_retries ∧
      ∃ res, executeWithRetry capF tc nm max_retries = some res ∧
        res.error.isSome) ∧
    (retryInvocations capS tc nm max_retries = k + 1 ∧
      executeWithRetry capS tc nm max_retries = some r ∧ r.error = none) := by
  have hlastF : ∃ e, attemptExc (capF (max_retries - 1)) = some e := by
    have := hF (max_retries - 1) (by omega)
    cases hcase : attemptExc (capF (max_retries - 1)) with
    | none => exact absurd hcase this
    | some e => exact ⟨e, rfl⟩
  obtain ⟨e, he⟩ := hlastF
  have hallF := retryAux_all_fail capF tc nm max_retries e he (max_retries - 1) 0
    (by omega) hF
  have hsucc := retryAux_succeeds capS tc nm max_retries k r hk hr k 0 (by omega)
    (fun i _ h₂ => hS i h₂)
  refine ⟨⟨?_, ?_⟩, ?_, ?_, ?_⟩
  · rw [retryInvocations, hallF]; omega
  · exact ⟨failureResult tc nm max_retries e, by rw [executeWithRetry, hallF],
      by simp [failureResult]⟩
  · rw [retryInvocations, hsucc]
  · rw [executeWithRetry, hsucc]
  · exact attemptResult_ok_error_none hr

theorem claim_C3_witness :
    (1 ≤ 3 ∧ (1 : ℕ) < 3) ∧
    retryInvocations (fun _ => .raises ⟨"HTTPError", "502"⟩)
      ⟨"fair_n", "fair_n02_3", "fair", "n", none⟩ "old_pipeline" 3 = 3 ∧
    retryInvocations
      (fun i => if i < 1 then .raises ⟨"HTTPError", "502"⟩
        else .returns ⟨⟨"fair_n", "fair_n02_3", "fair", "n", none⟩,
          "old_pipeline", [[("content", Val.str "q1")]], [], none⟩)
      ⟨"fair_n", "fair_n02_3", "fair", "n", none⟩ "old_pipeline" 3 = 2 := by
  have h := claim_C3_retry_invocation_counts
    (fun _ => .raises ⟨"HTTPError", "502"⟩)
    (fun i => if i < 1 then .raises ⟨"HTTPError", "502"⟩
      else .returns ⟨⟨"fair_n", "fair_n02_3", "fair", "n", none⟩,
        "old_pipeline", [[("content", Val.str "q1")]], [], none⟩)
    ⟨"fair_n", "fair_n02_3", "fair", "n", none⟩ "old_pipeline" 3 1
    ⟨⟨"fair_n", "fair_n02_3", "fair", "n", none⟩,
      "old_pipeline", [[("content", Val.str "q1")]], [], none⟩
    (by norm_num)
    (fun i _ => by simp [attemptExc, attemptResult])
    (by norm_num)
    (fun i hi => by
      interval_cases i
      · simp [attemptExc, attemptResult])
    (by simp [attemptResult])
  exact ⟨⟨by norm_num, by norm_num⟩, h.1.1, h.2.1⟩

theorem wait_if_needed_pos (s : RateLimiter) (now : ℚ) (hne : s.min_interval ≠ 0) :
    s.wait_if_needed now =
      (if now - s.last_call_time < s.min_interval
          then s.min_interval - (now - s.last_call_time) else 0,
       { s with last_call_time := now +
          (if now - s.last_call_time < s.min_interval
            then s.min_interval - (now - s.last_call_time) else 0) }) := by
  rw [RateLimiter.wait_if_needed, if_neg hne]

/-- C6: acquire returns immediately when calls_per_minute is 0;
otherwise it sleeps for the remainder whenever the elapsed time since
the stored mark is below 60/calls_per_minute seconds, unconditionally
sets the mark to the current time before returning, and consecutive
acquires are therefore spaced at least 60/calls_per_minute apart. -/
theorem claim_C6_rate_limiter (s : RateLimiter) (now : ℚ)
    (hinv : s.min_interval =
      if 0 < s.calls_per_minute then 60 / (s.calls_per_minute : ℚ) else 0)
    (hmono : s.last_call_time ≤ now) :
    (s.calls_per_minute = 0 → s.wait_if_needed now = (0, s)) ∧
    (0 < s.calls_per_minute →
      (s.wait_if_needed now).1 =
        (if now - s.last_call_time < 60 / (s.calls_per_minute : ℚ)
          then 60 / (s.calls_per_minute : ℚ) - (now - s.last_call_time) else 0) ∧
      (s.wait_if_needed now).2.last_call_time = now + (s.wait_if_needed now).1 ∧
      60 / (s.calls_per_minute : ℚ) ≤
        (s.wait_if_needed now).2.last_call_time - s.last_call_time) := by
  constructor
  · intro h0
    rw [h0] at hinv
    simp at hinv
    simp [RateLimiter.wait_if_needed, hinv]
  · intro hpos
    rw [if_pos hpos] at hinv
    have hmin : (0 : ℚ) < s.min_interval := by
      rw [hinv]
      positivity
    have hne : s.min_interval ≠ 0 := ne_of_gt hmin
    rw [wait_if_needed_pos s now hne, ← hinv]
    refine ⟨rfl, rfl, ?_⟩
    dsimp only
    by_cases hlt : now - s.last_call_time < s.min_interval
    · rw [if_pos hlt]
      linarith
    · rw [if_neg hlt]
      linarith [not_lt.mp hlt]

/-- Characterization of a comparison run against a consistent manager
(one whose cached results agree with its file, as after construction):
no-op resume when nothing remains, otherwise the accumulated list is the
loaded results followed by one produced outcome per remaining case, the
saves are the periodic snapshots followed by the unconditional final
one, and the final manager holds the accumulated list. -/
theorem ParallelComparisonRunner.run_spec_compare (ec : TestCase → ComparisonResult)
    (K : ℕ) (m : CheckpointManager ComparisonResult) (tcs : List TestCase)
    (hm : CheckpointManager.load decCRs m = (m.results, m)) :
    ParallelComparisonRunner.run ec K m tcs =
      (if (remainingCases (m.get_completed_ids (fun c => c.test_case.sense_id)) tcs).isEmpty
        then ⟨m.results, [], m⟩
        else
          ⟨m.results ++ (remainingCases (m.get_completed_ids (fun c => c.test_case.sense_id)) tcs).map ec,
           specSaves K m.results
             ((remainingCases (m.get_completed_ids (fun c => c.test_case.sense_id)) tcs).map ec) ++
             [m.results ++ (remainingCases (m.get_completed_ids (fun c => c.test_case.sense_id)) tcs).map ec],
           { file := some (encCRs (m.results ++
               (remainingCases (m.get_completed_ids (fun c => c.test_case.sense_id)) tcs).map ec)),
             results := m.results ++
               (remainingCases (m.get_completed_ids (fun c => c.test_case.sense_id)) tcs).map ec }⟩) := by
  rw [ParallelComparisonRunner.run]
  by_cases he : (remainingCases (m.get_completed_ids (fun c => c.test_case.sense_id)) tcs).isEmpty
  · simp only [if_pos he, hm]
  · simp only [if_neg he, hm, runLoop_results, runLoop_saves]
    rfl

/-- Characterization of a single-pipeline run against a consistent
manager: like the comparison run, except that on the no-op path the
loaded results are returned with total_execution_time forced to 0, and
on the full path the accumulated results are returned with
total_execution_time set to the measured duration, while the snapshots
saved (including the final one) carry the accumulated results without
that key. -/
theorem SinglePipelineRunner.run_spec_single (ec : TestCase → PipelineResult)
    (K : ℕ) (total_time : ℚ) (m : CheckpointManager PipelineResult)
    (tcs : List TestCase)
    (hm : CheckpointManager.load decPRs m = (m.results, m)) :
    SinglePipelineRunner.run ec K total_time m tcs =
      (if (remainingCases (m.get_completed_ids (fun r => r.test_case.sense_id)) tcs).isEmpty
        then ⟨m.results.map (PipelineResult.setTotalTime 0), [], m⟩
        else
          ⟨(m.results ++ (remainingCases (m.get_completed_ids (fun r => r.test_case.sense_id)) tcs).map ec).map
              (PipelineResult.setTotalTime total_time),
           specSaves K m.results
             ((remainingCases (m.get_completed_ids (fun r => r.test_case.sense_id)) tcs).map ec) ++
             [m.results ++ (remainingCases (m.get_completed_ids (fun r => r.test_case.sense_id)) tcs).map ec],
           { file := some (encPRs (m.results ++
               (remainingCases (m.get_completed_ids (fun r => r.test_case.sense_id)) tcs).map ec)),
             results := m.results ++
               (remainingCases (m.get_completed_ids (fun r => r.test_case.sense_id)) tcs).map ec }⟩) := by
  rw [SinglePipelineRunner.run]
  by_cases he : (remainingCases (m.get_completed_ids (fun r => r.test_case.sense_id)) tcs).isEmpty
  · simp only [if_pos he, hm]
  · simp only [if_neg he, hm, runLoop_results, runLoop_saves]
    rfl

/-- The remaining-work filter keeps exactly the test cases whose
sense_id is not among the completed identities. -/
theorem remainingCases_mem (completed_ids : List String)
    (test_cases : List TestCase) (tc : TestCase) :
    tc ∈ remainingCases completed_ids test_cases ↔
      tc ∈ test_cases ∧ tc.sense_id ∉ completed_ids := by
  simp [remainingCases, List.mem_filter, List.elem_iff]

theorem claim_C6_witness :
    ((0 : ℚ) ≤ 2 ∧ 0 < 60) ∧
    60 / ((60 : ℕ) : ℚ) ≤
      ((⟨60, 1, 0⟩ : RateLimiter).wait_if_needed 2).2.last_call_time -
        (⟨60, 1, 0⟩ : RateLimiter).last_call_time := by
  refine ⟨⟨by norm_num, by norm_num⟩, ?_⟩
  exact ((claim_C6_rate_limiter ⟨60, 1, 0⟩ 2 (by norm_num) (by norm_num)).2
    (by norm_num)).2.2

/-- C7: saving then loading round-trips the full outcome list, nested
TestCase and metadata included (through the object-graph encoding), and
save is idempotent: saving the same content twice leaves the same file
blob and in-memory cache as saving it once. -/
theorem claim_C7_save_load_roundtrip (m : CheckpointManager Outcome)
    (results : List Outcome) :
    CheckpointManager.load decOutcomes (CheckpointManager.save encOutcomes m results) =
      (results, CheckpointManager.save encOutcomes m results) ∧
    CheckpointManager.save encOutcomes
        (CheckpointManager.save encOutcomes m results) results =
      CheckpointManager.save encOutcomes m results := by
  refine ⟨?_, rfl⟩
  simp [CheckpointManager.save, CheckpointManager.load, decOutcomes_encOutcomes]

/-- C8: on a manager constructed for a run identity, load returns the
persisted list when the checkpoint file exists and decodes, returns
empty when no file exists, and treats an undecodable blob as empty,
leaving the manager with empty results; none of these paths fails. -/
theorem claim_C8_load_fallback (v : PVal) (results : List Outcome) :
    (decOutcomes v = some results →
      CheckpointManager.load decOutcomes
          (CheckpointManager.init0 decOutcomes (some v)) =
        (results, { file := some v, results := results })) ∧
    (CheckpointManager.load decOutcomes
        (CheckpointManager.init0 (α := Outcome) decOutcomes none) =
      ([], { file := none, results := [] })) ∧
    (decOutcomes v = none →
      CheckpointManager.load decOutcomes
          (CheckpointManager.init0 decOutcomes (some v)) =
        ([], { file := some v, results := [] })) := by
  refine ⟨?_, rfl, ?_⟩
  · intro h
    rw [CheckpointManager.init0_good decOutcomes v results h]
    exact CheckpointManager.load_consistent decOutcomes v results h
  · intro h
    simp [CheckpointManager.init0, CheckpointManager.load, h]

theorem claim_C8_witness :
    (decOutcomes (encOutcomes [.single ⟨⟨"e", "s1", "w", "n", none⟩, "p", [], [], none⟩]) =
        some [.single ⟨⟨"e", "s1", "w", "n", none⟩, "p", [], [], none⟩] ∧
      decOutcomes (PVal.pstr "garbled bytes") = none) ∧
    CheckpointManager.load decOutcomes
        (CheckpointManager.init0 decOutcomes
          (some (encOutcomes [.single ⟨⟨"e", "s1", "w", "n", none⟩, "p", [], [], none⟩]))) =
      ([.single ⟨⟨"e", "s1", "w", "n", none⟩, "p", [], [], none⟩],
        { file := some (encOutcomes [.single ⟨⟨"e", "s1", "w", "n", none⟩, "p", [], [], none⟩])
          results := [.single ⟨⟨"e", "s1", "w", "n", none⟩, "p", [], [], none⟩] }) ∧
    CheckpointManager.load decOutcomes
        (CheckpointManager.init0 decOutcomes (some (PVal.pstr "garbled bytes"))) =
      ([], { file := some (PVal.pstr "garbled bytes"), results := [] }) := by
  refine ⟨⟨by rfl, by rfl⟩, ?_, ?_⟩
  · exact (claim_C8_load_fallback
      (encOutcomes [.single ⟨⟨"e", "s1", "w", "n", none⟩, "p", [], [], none⟩])
      [.single ⟨⟨"e", "s1", "w", "n", none⟩, "p", [], [], none⟩]).1 (by rfl)
  · exact (claim_C8_load_fallback (PVal.pstr "garbled bytes") []).2.2 (by rfl)

/-- C1: with a manager holding a loaded checkpoint, both runs compute
the remaining work as exactly the test cases whose sense_id is absent
from the set of sense_ids of the loaded outcomes — membership depends
on sense_id alone, not on word or pos content — and execute exactly
those cases, appending one produced outcome per remaining case to the
loaded list. -/
theorem claim_C1_remaining_work
    (loadedC : List ComparisonResult) (loadedS : List PipelineResult)
    (ecC : TestCase → ComparisonResult) (ecS : TestCase → PipelineResult)
    (K : ℕ) (total_time : ℚ) (test_cases : List TestCase) (tc : TestCase) :
    (tc ∈ remainingCases
        ((CheckpointManager.init0 decCRs (some (encCRs loadedC))).get_completed_ids
          (fun c => c.test_case.sense_id)) test_cases ↔
      tc ∈ test_cases ∧
        tc.sense_id ∉ loadedC.map (fun c => c.test_case.sense_id)) ∧
    (tc ∈ remainingCases
        ((CheckpointManager.init0 decPRs (some (encPRs loadedS))).get_completed_ids
          (fun r => r.test_case.sense_id)) test_cases ↔
      tc ∈ test_cases ∧
        tc.sense_id ∉ loadedS.map (fun r => r.test_case.sense_id)) ∧
    ((ParallelComparisonRunner.run ecC K
        (CheckpointManager.init0 decCRs (some (encCRs loadedC))) test_cases).results =
      loadedC ++ (remainingCases (loadedC.map (fun c => c.test_case.sense_id))
        test_cases).map ecC) ∧
    (remainingCases (loadedS.map (fun r => r.test_case.sense_id)) test_cases ≠ [] →
      (SinglePipelineRunner.run ecS K total_time
          (CheckpointManager.init0 decPRs (some (encPRs loadedS))) test_cases).results =
        (loadedS ++ (remainingCases (loadedS.map (fun r => r.test_case.sense_id))
          test_cases).map ecS).map (PipelineResult.setTotalTime total_time)) := by
  have hmC := CheckpointManager.init0_good decCRs (encCRs loadedC) loadedC
    (decCRs_encCRs loadedC)
  have hmS := CheckpointManager.init0_good decPRs (encPRs loadedS) loadedS
    (decPRs_encPRs loadedS)
  have hloadC := CheckpointManager.load_consistent decCRs (encCRs loadedC) loadedC
    (decCRs_encCRs loadedC)
  have hloadS := CheckpointManager.load_consistent decPRs (encPRs loadedS) loadedS
    (decPRs_encPRs loadedS)
  refine ⟨?_, ?_, ?_, ?_⟩
  · rw [hmC]
    exact remainingCases_mem _ _ _
  · rw [hmS]
    exact remainingCases_mem _ _ _
  · rw [hmC, ParallelComparisonRunner.run_spec_compare ecC K _ test_cases hloadC]
    by_cases he : (remainingCases (loadedC.map fun c => c.test_case.sense_id)
        test_cases).isEmpty
    · have hnil := List.isEmpty_iff.mp he
      simp only [CheckpointManager.get_completed_ids]
      rw [if_pos (by simpa [CheckpointManager.get_completed_ids] using he)]
      simp [hnil]
    · simp only [CheckpointManager.get_completed_ids]
      rw [if_neg (by simpa [CheckpointManager.get_completed_ids] using he)]
  · intro hne
    rw [hmS, SinglePipelineRunner.run_spec_single ecS K total_time _ test_cases hloadS]
    simp only [CheckpointManager.get_completed_ids]
    rw [if_neg (by simpa [CheckpointManager.get_completed_ids, List.isEmpty_iff]
      using hne)]

theorem claim_C1_witness :
    ((remainingCases (([⟨⟨"e1", "s1", "w1", "n", none⟩, "p", [], [], none⟩] :
        List PipelineResult).map
        (fun r => r.test_case.sense_id)) [⟨"e1", "s1", "changed", "v", none⟩,
        ⟨"e2", "s2", "w2", "n", none⟩] ≠ [])) ∧
    (⟨"e1", "s1", "changed", "v", none⟩ ∉ remainingCases
        ((CheckpointManager.init0 decPRs (some (encPRs
          [⟨⟨"e1", "s1", "w1", "n", none⟩, "p", [], [], none⟩]))).get_completed_ids
          (fun r => r.test_case.sense_id))
        [⟨"e1", "s1", "changed", "v", none⟩, ⟨"e2", "s2", "w2", "n", none⟩]) ∧
    (SinglePipelineRunner.run (fun tc => ⟨tc, "p", [], [], none⟩) 10 0
        (CheckpointManager.init0 decPRs (some (encPRs
          [⟨⟨"e1", "s1", "w1", "n", none⟩, "p", [], [], none⟩])))
        [⟨"e1", "s1", "changed", "v", none⟩, ⟨"e2", "s2", "w2", "n", none⟩]).results =
      ([⟨⟨"e1", "s1", "w1", "n", none⟩, "p", [], [], none⟩,
        ⟨⟨"e2", "s2", "w2", "n", none⟩, "p", [], [], none⟩] :
        List PipelineResult).map (PipelineResult.setTotalTime 0) := by
  refine ⟨by decide, ?_, ?_⟩
  · intro hmem
    have h := (claim_C1_remaining_work
      [⟨⟨"e1", "s1", "w1", "n", none⟩,
        ⟨⟨"e1", "s1", "w1", "n", none⟩, "p", [], [], none⟩,
        ⟨⟨"e1", "s1", "w1", "n", none⟩, "p", [], [], none⟩⟩]
      [⟨⟨"e1", "s1", "w1", "n", none⟩, "p", [], [], none⟩]
      (fun tc => ⟨tc, ⟨tc, "p", [], [], none⟩, ⟨tc, "p", [], [], none⟩⟩)
      (fun tc => ⟨tc, "p", [], [], none⟩) 10 0
      [⟨"e1", "s1", "changed", "v", none⟩, ⟨"e2", "s2", "w2", "n", none⟩]
      ⟨"e1", "s1", "changed", "v", none⟩).2.1.mp hmem
    revert h
    decide
  · have h := (claim_C1_remaining_work
      [⟨⟨"e1", "s1", "w1", "n", none⟩,
        ⟨⟨"e1", "s1", "w1", "n", none⟩, "p", [], [], none⟩,
        ⟨⟨"e1", "s1", "w1", "n", none⟩, "p", [], [], none⟩⟩]
      [⟨⟨"e1", "s1", "w1", "n", none⟩, "p", [], [], none⟩]
      (fun tc => ⟨tc, ⟨tc, "p", [], [], none⟩, ⟨tc, "p", [], [], none⟩⟩)
      (fun tc => ⟨tc, "p", [], [], none⟩) 10 0
      [⟨"e1", "s1", "changed", "v", none⟩, ⟨"e2", "s2", "w2", "n", none⟩]
      ⟨"e1", "s1", "changed", "v", none⟩).2.2.2 (by decide)
    rw [h]
    decide

/-- C4 counterexample: in single-pipeline mode the final returned list
is not what was last saved. On one fresh test case with checkpoint
interval 10 and measured duration 7, the last snapshot handed to the
store is the bare result, while the returned list carries the
total_execution_time key written after the final save. -/
theorem claim_C4_counterexample :
    (SinglePipelineRunner.run (fun tc => ⟨tc, "p", [], [], none⟩) 10 7
        ⟨none, []⟩ [⟨"e1", "s1", "w1", "n", none⟩]).saves.getLast? =
      some [⟨⟨"e1", "s1", "w1", "n", none⟩, "p", [], [], none⟩] ∧
    (SinglePipelineRunner.run (fun tc => ⟨tc, "p", [], [], none⟩) 10 7
        ⟨none, []⟩ [⟨"e1", "s1", "w1", "n", none⟩]).results ≠
      [⟨⟨"e1", "s1", "w1", "n", none⟩, "p", [], [], none⟩] := by
  exact ⟨by decide, by decide⟩

/-- C4 (amended): during a run with tasks to do, the accumulated list is
persisted exactly when its length becomes divisible by K as each
outcome is appended, and once more unconditionally after all tasks
complete; in compare mode the returned list is exactly the last saved
snapshot, while in single-pipeline mode the returned list is the last
saved snapshot with total_execution_time additionally set in the
metadata of every result (the persisted copy lacks that key). -/
theorem claim_C4_checkpoint_cadence
    (ecC : TestCase → ComparisonResult) (ecS : TestCase → PipelineResult)
    (K : ℕ) (total_time : ℚ)
    (mC : CheckpointManager ComparisonResult)
    (mS : CheckpointManager PipelineResult) (test_cases : List TestCase)
    (hmC : CheckpointManager.load decCRs mC = (mC.results, mC))
    (hmS : CheckpointManager.load decPRs mS = (mS.results, mS))
    (hC : ¬(remainingCases (mC.get_completed_ids (fun c => c.test_case.sense_id))
      test_cases).isEmpty)
    (hS : ¬(remainingCases (mS.get_completed_ids (fun r => r.test_case.sense_id))
      test_cases).isEmpty) :
    ((ParallelComparisonRunner.run ecC K mC test_cases).saves =
        specSaves K mC.results
          ((remainingCases (mC.get_completed_ids (fun c => c.test_case.sense_id))
            test_cases).map ecC) ++
          [(ParallelComparisonRunner.run ecC K mC test_cases).results] ∧
      (ParallelComparisonRunner.run ecC K mC test_cases).saves.getLast? =
        some (ParallelComparisonRunner.run ecC K mC test_cases).results ∧
      (ParallelComparisonRunner.run ecC K mC test_cases).manager.file =
        some (encCRs (ParallelComparisonRunner.run ecC K mC test_cases).results)) ∧
    ((SinglePipelineRunner.run ecS K total_time mS test_cases).saves =
        specSaves K mS.results
          ((remainingCases (mS.get_completed_ids (fun r => r.test_case.sense_id))
            test_cases).map ecS) ++
          [mS.results ++ (remainingCases
            (mS.get_completed_ids (fun r => r.test_case.sense_id))
            test_cases).map ecS] ∧
      (SinglePipelineRunner.run ecS K total_time mS test_cases).saves.getLast? =
        some (mS.results ++ (remainingCases
          (mS.get_completed_ids (fun r => r.test_case.sense_id))
          test_cases).map ecS) ∧
      (SinglePipelineRunner.run ecS K total_time mS test_cases).results =
        (mS.results ++ (remainingCases
          (mS.get_completed_ids (fun r => r.test_case.sense_id))
          test_cases).map ecS).map (PipelineResult.setTotalTime total_time)) := by
  rw [ParallelComparisonRunner.run_spec_compare ecC K mC test_cases hmC,
      SinglePipelineRunner.run_spec_single ecS K total_time mS test_cases hmS,
      if_neg hC, if_neg hS]
  refine ⟨⟨rfl, ?_, rfl⟩, rfl, ?_, rfl⟩
  · simp [List.getLast?_append]
  · simp [List.getLast?_append]

theorem claim_C4_witness :
    (¬(remainingCases
        ((⟨none, []⟩ : CheckpointManager ComparisonResult).get_completed_ids
          (fun c => c.test_case.sense_id))
        [⟨"e1", "s1", "w1", "n", none⟩, ⟨"e2", "s2", "w2", "n", none⟩]).isEmpty) ∧
    (ParallelComparisonRunner.run
        (fun tc => ⟨tc, ⟨tc, "new", [], [], none⟩, ⟨tc, "old", [], [], none⟩⟩) 1
        ⟨none, []⟩
        [⟨"e1", "s1", "w1", "n", none⟩, ⟨"e2", "s2", "w2", "n", none⟩]).saves.getLast? =
      some (ParallelComparisonRunner.run
        (fun tc => ⟨tc, ⟨tc, "new", [], [], none⟩, ⟨tc, "old", [], [], none⟩⟩) 1
        ⟨none, []⟩
        [⟨"e1", "s1", "w1", "n", none⟩, ⟨"e2", "s2", "w2", "n", none⟩]).results := by
  refine ⟨by decide, ?_⟩
  exact (claim_C4_checkpoint_cadence
    (fun tc => ⟨tc, ⟨tc, "new", [], [], none⟩, ⟨tc, "old", [], [], none⟩⟩)
    (fun tc => ⟨tc, "p", [], [], none⟩) 1 0 ⟨none, []⟩ ⟨none, []⟩
    [⟨"e1", "s1", "w1", "n", none⟩, ⟨"e2", "s2", "w2", "n", none⟩]
    rfl rfl (by decide) (by decide)).1.2.1

/-- C9 counterexample: on a no-op resume in single-pipeline mode the
loaded outcomes are not returned unmodified: the loaded result had
empty metadata, but the returned one carries total_execution_time 0. -/
theorem claim_C9_counterexample :
    (SinglePipelineRunner.run (fun tc => ⟨tc, "p", [], [], none⟩) 10 7
        ⟨some (encPRs [⟨⟨"e1", "s1", "w1", "n", none⟩, "p", [], [], none⟩]),
         [⟨⟨"e1", "s1", "w1", "n", none⟩, "p", [], [], none⟩]⟩
        [⟨"e1", "s1", "w1", "n", none⟩]).results ≠
      [⟨⟨"e1", "s1", "w1", "n", none⟩, "p", [], [], none⟩] := by
  decide

/-- C9 (amended): when the sense_id of every test case is already in the
loaded checkpoint, neither run executes anything or saves anything; the
comparison run returns the loaded checkpoint verbatim with the manager
untouched, while the single-pipeline run returns the loaded outcomes
with metadata total_execution_time set to 0 in each. -/
theorem claim_C9_noop_resume
    (ecC : TestCase → ComparisonResult) (ecS : TestCase → PipelineResult)
    (K : ℕ) (total_time : ℚ)
    (mC : CheckpointManager ComparisonResult)
    (mS : CheckpointManager PipelineResult) (test_cases : List TestCase)
    (hmC : CheckpointManager.load decCRs mC = (mC.results, mC))
    (hmS : CheckpointManager.load decPRs mS = (mS.results, mS))
    (hC : (remainingCases (mC.get_completed_ids (fun c => c.test_case.sense_id))
      test_cases).isEmpty)
    (hS : (remainingCases (mS.get_completed_ids (fun r => r.test_case.sense_id))
      test_cases).isEmpty) :
    ParallelComparisonRunner.run ecC K mC test_cases =
      ⟨mC.results, [], mC⟩ ∧
    SinglePipelineRunner.run ecS K total_time mS test_cases =
      ⟨mS.results.map (PipelineResult.setTotalTime 0), [], mS⟩ := by
  rw [ParallelComparisonRunner.run_spec_compare ecC K mC test_cases hmC,
      SinglePipelineRunner.run_spec_single ecS K total_time mS test_cases hmS,
      if_pos hC, if_pos hS]
  exact ⟨rfl, rfl⟩

theorem claim_C9_witness :
    ((remainingCases
        ((⟨some (encCRs [⟨⟨"e1", "s1", "w1", "n", none⟩,
            ⟨⟨"e1", "s1", "w1", "n", none⟩, "new", [], [], none⟩,
            ⟨⟨"e1", "s1", "w1", "n", none⟩, "old", [], [], none⟩⟩]),
          [⟨⟨"e1", "s1", "w1", "n", none⟩,
            ⟨⟨"e1", "s1", "w1", "n", none⟩, "new", [], [], none⟩,
            ⟨⟨"e1", "s1", "w1", "n", none⟩, "old", [], [], none⟩⟩]⟩ :
          CheckpointManager ComparisonResult).get_completed_ids
          (fun c => c.test_case.sense_id))
        [⟨"e1", "s1", "changed", "v", none⟩]).isEmpty) ∧
    ParallelComparisonRunner.run
        (fun tc => ⟨tc, ⟨tc, "new", [], [], none⟩, ⟨tc, "old", [], [], none⟩⟩) 10
        ⟨some (encCRs [⟨⟨"e1", "s1", "w1", "n", none⟩,
            ⟨⟨"e1", "s1", "w1", "n", none⟩, "new", [], [], none⟩,
            ⟨⟨"e1", "s1", "w1", "n", none⟩, "old", [], [], none⟩⟩]),
          [⟨⟨"e1", "s1", "w1", "n", none⟩,
            ⟨⟨"e1", "s1", "w1", "n", none⟩, "new", [], [], none⟩,
            ⟨⟨"e1", "s1", "w1", "n", none⟩, "old", [], [], none⟩⟩]⟩
        [⟨"e1", "s1", "changed", "v", none⟩] =
      ⟨[⟨⟨"e1", "s1", "w1", "n", none⟩,
          ⟨⟨"e1", "s1", "w1", "n", none⟩, "new", [], [], none⟩,
          ⟨⟨"e1", "s1", "w1", "n", none⟩, "old", [], [], none⟩⟩], [],
        ⟨some (encCRs [⟨⟨"e1", "s1", "w1", "n", none⟩,
            ⟨⟨"e1", "s1", "w1", "n", none⟩, "new", [], [], none⟩,
            ⟨⟨"e1", "s1", "w1", "n", none⟩, "old", [], [], none⟩⟩]),
          [⟨⟨"e1", "s1", "w1", "n", none⟩,
            ⟨⟨"e1", "s1", "w1", "n", none⟩, "new", [], [], none⟩,
            ⟨⟨"e1", "s1", "w1", "n", none⟩, "old", [], [], none⟩⟩]⟩⟩ := by
  refine ⟨by decide, ?_⟩
  exact (claim_C9_noop_resume
    (fun tc => ⟨tc, ⟨tc, "new", [], [], none⟩, ⟨tc, "old", [], [], none⟩⟩)
    (fun tc => ⟨tc, "p", [], [], none⟩) 10 0
    ⟨some (encCRs [⟨⟨"e1", "s1", "w1", "n", none⟩,
        ⟨⟨"e1", "s1", "w1", "n", none⟩, "new", [], [], none⟩,
        ⟨⟨"e1", "s1", "w1", "n", none⟩, "old", [], [], none⟩⟩]),
      [⟨⟨"e1", "s1", "w1", "n", none⟩,
        ⟨⟨"e1", "s1", "w1", "n", none⟩, "new", [], [], none⟩,
        ⟨⟨"e1", "s1", "w1", "n", none⟩, "old", [], [], none⟩⟩]⟩
    ⟨some (encPRs [⟨⟨"e1", "s1", "w1", "n", none⟩, "p", [], [], none⟩]),
      [⟨⟨"e1", "s1", "w1", "n", none⟩, "p", [], [], none⟩]⟩
    [⟨"e1", "s1", "changed", "v", none⟩]
    (CheckpointManager.load_consistent decCRs _ _ (by rfl))
    (CheckpointManager.load_consistent decPRs _ _ (by rfl))
    (by decide) (by decide)).1

/-- C5: every ComparisonResult is constructed as a join of the two fully
resolved retry-adapter results for its test case, and the two sides are
independent: when the old capability always fails and the new one always
succeeds, every produced outcome has old_result.error set and
new_result.error unset, and the comparison run still completes for all
remaining cases. -/
theorem claim_C5_dual_independence
    (newCap oldCap : TestCase → ℕ → ExecBehavior) (newName oldName : String)
    (K : ℕ) (m : CheckpointManager ComparisonResult) (test_cases : List TestCase)
    (hm : CheckpointManager.load decCRs m = (m.results, m))
    (hOld : ∀ tc i, attemptExc (oldCap tc i) ≠ none)
    (hNew : ∀ tc i, ∃ r, attemptResult (newCap tc i) = .ok r) :
    (∀ tc, ∃ n o, executeWithRetry (newCap tc) tc newName 3 = some n ∧
      executeWithRetry (oldCap tc) tc oldName 3 = some o ∧
      ParallelComparisonRunner.compareSingle newCap oldCap newName oldName tc =
        ⟨tc, n, o⟩ ∧
      n.error = none ∧ o.error.isSome) ∧
    ((ParallelComparisonRunner.run
        (ParallelComparisonRunner.compareSingle newCap oldCap newName oldName)
        K m test_cases).results.length =
      m.results.length +
        (remainingCases (m.get_completed_ids (fun c => c.test_case.sense_id))
          test_cases).length ∧
      ∀ c ∈ (ParallelComparisonRunner.run
          (ParallelComparisonRunner.compareSingle newCap oldCap newName oldName)
          K m test_cases).results.drop m.results.length,
        c.old_result.error.isSome ∧ c.new_result.error = none) := by
  have hjoin : ∀ tc, ∃ n o,
      executeWithRetry (newCap tc) tc newName 3 = some n ∧
      executeWithRetry (oldCap tc) tc oldName 3 = some o ∧
      ParallelComparisonRunner.compareSingle newCap oldCap newName oldName tc =
        ⟨tc, n, o⟩ ∧
      n.error = none ∧ o.error.isSome := by
    intro tc
    obtain ⟨r₀, hr₀⟩ := hNew tc 0
    have hnew : executeWithRetry (newCap tc) tc newName 3 = some r₀ := by
      rw [executeWithRetry,
        retryAux_succeeds (newCap tc) tc newName 3 0 r₀ (by omega) hr₀ 0 0
          (by omega) (fun i h₁ h₂ => absurd h₂ (by omega))]
    have hlast : ∃ e, attemptExc (oldCap tc 2) = some e := by
      have := hOld tc 2
      cases hcase : attemptExc (oldCap tc 2) with
      | none => exact absurd hcase this
      | some e => exact ⟨e, rfl⟩
    obtain ⟨e, he⟩ := hlast
    have hold : executeWithRetry (oldCap tc) tc oldName 3 =
        some (failureResult tc oldName 3 e) := by
      rw [executeWithRetry,
        retryAux_all_fail (oldCap tc) tc oldName 3 e he 2 0 (by omega)
          (fun i _ => hOld tc i)]
    refine ⟨r₀, failureResult tc oldName 3 e, hnew, hold, ?_, ?_, ?_⟩
    · rw [ParallelComparisonRunner.compareSingle, hnew, hold]
      rfl
    · exact attemptResult_ok_error_none hr₀
    · simp [failureResult]
  refine ⟨hjoin, ?_⟩
  rw [ParallelComparisonRunner.run_spec_compare
    (ParallelComparisonRunner.compareSingle newCap oldCap newName oldName)
    K m test_cases hm]
  by_cases he : (remainingCases
      (m.get_completed_ids (fun c => c.test_case.sense_id)) test_cases).isEmpty
  · rw [if_pos he]
    have hnil := List.isEmpty_iff.mp he
    simp [hnil]
  · rw [if_neg he]
    refine ⟨by simp, ?_⟩
    intro c hc
    rw [List.drop_left] at hc
    simp only [List.mem_map] at hc
    obtain ⟨tc, _, htc⟩ := hc
    obtain ⟨n, o, _, _, hcs, hn, ho⟩ := hjoin tc
    rw [hcs] at htc
    rw [← htc]
    exact ⟨ho, hn⟩

theorem claim_C5_witness :
    ((∀ (tc : TestCase) (i : ℕ),
        attemptExc ((fun (_ : TestCase) (_ : ℕ) =>
          ExecBehavior.raises ⟨"HTTPError", "500 Server Error"⟩) tc i) ≠ none) ∧
      (∀ (tc : TestCase) (i : ℕ), ∃ r, attemptResult
        ((fun (tc : TestCase) (_ : ℕ) => ExecBehavior.returns
          ⟨tc, "new_pipeline", [[("content", Val.str "q1")]], [], none⟩) tc i) =
          .ok r)) ∧
    (ParallelComparisonRunner.run
        (ParallelComparisonRunner.compareSingle
          (fun tc _ => ExecBehavior.returns
            ⟨tc, "new_pipeline", [[("content", Val.str "q1")]], [], none⟩)
          (fun _ _ => ExecBehavior.raises ⟨"HTTPError", "500 Server Error"⟩)
          "new_pipeline" "old_pipeline")
        10 ⟨none, []⟩ [⟨"e1", "s1", "w1", "n", none⟩]).results.length = 1 ∧
    ∀ c ∈ (ParallelComparisonRunner.run
        (ParallelComparisonRunner.compareSingle
          (fun tc _ => ExecBehavior.returns
            ⟨tc, "new_pipeline", [[("content", Val.str "q1")]], [], none⟩)
          (fun _ _ => ExecBehavior.raises ⟨"HTTPError", "500 Server Error"⟩)
          "new_pipeline" "old_pipeline")
        10 ⟨none, []⟩ [⟨"e1", "s1", "w1", "n", none⟩]).results.drop 0,
      c.old_result.error.isSome ∧ c.new_result.error = none := by
  have h := claim_C5_dual_independence
    (fun tc _ => ExecBehavior.returns
      ⟨tc, "new_pipeline", [[("content", Val.str "q1")]], [], none⟩)
    (fun _ _ => ExecBehavior.raises ⟨"HTTPError", "500 Server Error"⟩)
    "new_pipeline" "old_pipeline" 10 ⟨none, []⟩
    [⟨"e1", "s1", "w1", "n", none⟩] rfl
    (fun tc i => by simp [attemptExc, attemptResult])
    (fun tc i => ⟨⟨tc, "new_pipeline", [[("content", Val.str "q1")]], [], none⟩,
      by simp [attemptResult]⟩)
  refine ⟨⟨fun tc i => by simp [attemptExc, attemptResult],
    fun tc i => ⟨⟨tc, "new_pipeline", [[("content", Val.str "q1")]], [], none⟩,
      by simp [attemptResult]⟩⟩, ?_, ?_⟩
  · rw [h.2.1]
    decide
  · exact h.2.2

end Bench
